import Mathlib

/-!
# Verification of the content-discovery pipeline and tag composer

Shallow embedding of the discovery / filter / tag-composition logic of the
Jacaranda Talk forum frontend:

* `src/frontend/src/components/TagInput.tsx` — the `TagInput` composer
  (`handleKeyDown` / `handleInputChange`);
* `src/frontend/src/components/LoginForm.tsx` (second document,
  `ThreadEditModal`) — the inline tags input (`onKeyDown`);
* `src/unnamed/part_003` (third document, `ThreadsListPage`) —
  `loadAllThreads`, `loadThreadsWithFilters`, `doSearchWithFilters`, and the
  URL-parameter decoding `useEffect`.

Strings are modelled as `List Char` (`Str`), which matches JavaScript strings
character-for-character on the ASCII fragment these components operate on.
-/

abbrev Str := List Char

/-- The tag character class `[a-zA-Z0-9_-]` used by both composer sites
(regex in `TagInput.tsx` line 80/96 and `LoginForm.tsx` line 417). -/
def isValidTagChar (c : Char) : Bool :=
  (('a' ≤ c && c ≤ 'z') || ('A' ≤ c && c ≤ 'Z') || ('0' ≤ c && c ≤ '9')
    || c = '_' || c = '-')

/-- `value.replace(/[^a-zA-Z0-9_-]/g, '')` : keep only tag-class characters. -/
def filterValid (l : Str) : Str := l.filter isValidTagChar

/-- ASCII whitespace recognised by `String.prototype.trim` (the inputs
handled here are ASCII; the full JS definition also covers Unicode space). -/
def isWs (c : Char) : Bool :=
  (c = ' ' || c = '\t' || c = '\n' || c = '\r' || c = '\x0b' || c = '\x0c')

/-- JavaScript `s.trim()` : drop leading and trailing whitespace. -/
def trimStr (l : Str) : Str :=
  ((l.dropWhile isWs).reverse.dropWhile isWs).reverse

/-- The 26 ASCII uppercase letters. -/
def upperChars : List Char :=
  ['A', 'B', 'C', 'D', 'E', 'F', 'G', 'H', 'I', 'J', 'K', 'L', 'M',
   'N', 'O', 'P', 'Q', 'R', 'S', 'T', 'U', 'V', 'W', 'X', 'Y', 'Z']

/-- JavaScript `toLowerCase()` on one character, restricted to the ASCII
range the composers produce: `A`–`Z` maps to `a`–`z` (code point + 32),
everything else is unchanged. -/
def jsLowerChar (c : Char) : Char :=
  if upperChars.contains c then Char.ofNat (c.toNat + 32) else c

/-- JavaScript `s.toLowerCase()` (ASCII fragment). -/
def jsLower (l : Str) : Str := l.map jsLowerChar

/-- `s.split(sep)` for a single-character separator, mirroring JavaScript
`String.prototype.split`: the result is always non-empty, and
`"".split(sep) = [""]`. -/
def splitChar (sep : Char) : Str → List Str
  | [] => [[]]
  | c :: rest =>
    match splitChar sep rest with
    | [] => [[]]
    | s :: ss => if c = sep then [] :: s :: ss else (c :: s) :: ss

/-- `parts.join(',')` as in `tags.join(',')`. -/
def joinComma : List Str → Str
  | [] => []
  | [t] => t
  | t :: ts => t ++ ',' :: joinComma ts

/-- The trailing segment after the last `#` of a string:
`inputValue.split('#')` followed by taking the last part
(`TagInput.tsx` lines 106–107). -/
def afterLastHash (l : Str) : Str :=
  ((splitChar '#' l).getLast?).getD []

/-- A string drawn entirely from the tag character class. -/
def validStr (l : Str) : Bool := l.all isValidTagChar

/-- Absence of ASCII uppercase letters — the sense in which committed tags
are "normalized lowercase". -/
def noUpperStr (t : Str) : Bool := t.all (fun c => !(upperChars.contains c))

/-! ## The tag composer state machines

Both composition sites keep `(committed tags, isTagging, tagDraft)`.
Events are single keystrokes delivered to the input element.  The
`TagInput` component routes printable characters through the controlled
input (`handleInputChange`), which re-filters the whole value; keydown
`preventDefault`s invalid characters first.  While drafting, the input
element's text equals the draft buffer (the component writes it back on
every change and clears it on Enter/Escape/empty-Backspace), so a
keystroke-level step function is a faithful model. -/

structure ComposerState where
  tags : List Str
  tagging : Bool
  draft : Str
  deriving DecidableEq, Repr

inductive Key where
  | char (c : Char)
  | enter
  | backspace
  | escape
  deriving DecidableEq, Repr

/-- One keystroke of the `TagInput` composer
(`TagInput.tsx`, `handleKeyDown` lines 40–87 and `handleInputChange`
lines 89–116). -/
def tagInputStep (s : ComposerState) (k : Key) : ComposerState :=
  if s.tagging then
    match k with
    | Key.enter =>
      let cleaned := jsLower (trimStr s.draft)
      if cleaned ≠ [] ∧ cleaned ∉ s.tags then
        { tags := s.tags ++ [cleaned], tagging := false, draft := [] }
      else
        { s with tagging := false, draft := [] }
    | Key.escape => { s with tagging := false, draft := [] }
    | Key.backspace =>
      if s.draft = [] then
        { s with tagging := false }
      else
        { s with draft := filterValid s.draft.dropLast }
    | Key.char c =>
      if isValidTagChar c then
        { s with draft := filterValid (s.draft ++ [c]) }
      else
        s
  else
    match k with
    | Key.char c =>
      if c = '#' then
        { s with tagging := true, draft := filterValid (afterLastHash [c]) }
      else
        s
    | _ => s

/-- One keystroke of the `ThreadEditModal` tags input
(`LoginForm.tsx` second document, `onKeyDown` lines 379–428). -/
def threadEditStep (s : ComposerState) (k : Key) : ComposerState :=
  match k with
  | Key.char c =>
    if c = '#' then
      if s.tagging then s
      else { s with tagging := true, draft := [] }
    else if s.tagging then
      if isValidTagChar c then { s with draft := s.draft ++ [c] } else s
    else
      s
  | Key.enter =>
    if s.tagging then
      let cleaned := jsLower (trimStr s.draft)
      if cleaned ≠ [] ∧ cleaned ∉ s.tags then
        { tags := s.tags ++ [cleaned], tagging := false, draft := [] }
      else
        { s with tagging := false, draft := [] }
    else
      s
  | Key.backspace =>
    if s.tagging then { s with draft := s.draft.dropLast } else s
  | Key.escape =>
    if s.tagging then { s with tagging := false, draft := [] } else s

/-- The composer a component mounts with: the committed tags it was given,
not drafting, empty buffer. -/
def composerInit (tags0 : List Str) : ComposerState :=
  { tags := tags0, tagging := false, draft := [] }

/-- Running a keystroke sequence through a composer. -/
def runComposer (step : ComposerState → Key → ComposerState)
    (s : ComposerState) (ks : List Key) : ComposerState :=
  ks.foldl step s

/-! ## The filter-state codec

The URL query parameters the discovery page consumes (`q`, `tag`,
`category`, `page`).  `URLSearchParams` is a string multimap; restricted to
these four keys it is the record below, `none` meaning the parameter is
absent.  Modelling the parsed parameters directly avoids re-deriving URL
percent-decoding, which the code delegates to `URLSearchParams`. -/

structure QueryParams where
  q : Option Str
  tag : Option Str
  category : Option Str
  page : Option Str
  deriving DecidableEq, Repr

/-- The filter state as the `ThreadsListPage` component holds it:
`q`, `tags`, `category` (a string, `''` meaning no category), and the page
that gets fetched. -/
structure CodeFilter where
  q : Str
  tags : List Str
  category : Str
  page : Nat
  deriving DecidableEq, Repr

/-- URL-parameter decoding, from the `ThreadsListPage` `useEffect`
(`part_003` lines 579–594):

* `params.get('tag') || ''`, then `tagParam ? tagParam.split(',').map(t => t.trim()) : []`;
* `params.get('category') || ''`;
* `params.get('q') || ''`;
* no `page` parameter is ever read — the effect always resolves page 1
  (`doSearch(1)` / `loadAllThreads(1)`). -/
def decodeFilters (p : QueryParams) : CodeFilter :=
  let tagParam := p.tag.getD []
  let categoryParam := p.category.getD []
  let searchParam := p.q.getD []
  { q := searchParam
    tags := if tagParam ≠ [] then (splitChar ',' tagParam).map trimStr else []
    category := categoryParam
    page := 1 }

/-- The abstract `FilterState` of the specification's data model (§3):
keyword, tag set, optional integer category id, positive page. -/
structure FilterState where
  keyword : Str
  tags : List Str
  categoryId : Option Nat
  page : Nat
  deriving DecidableEq, Repr

/-- Decimal rendering of a natural number, as JavaScript string coercion
produces for the integers used here. -/
def natToStr (n : Nat) : Str := Nat.toDigits 10 n

/-- Modelled from the spec: the repository contains no encoder — nothing in
`src/` writes the discovery filter back into the URL query string — so
`encode` is taken from §4.2 of the specification: each field is omitted
entirely when it equals its default (`keyword=""`, `tags` empty,
`categoryId` none, `page` 1); tags are comma-joined. -/
def encodeFilter (s : FilterState) : QueryParams :=
  { q := if s.keyword = [] then none else some s.keyword
    tag := if s.tags = [] then none else some (joinComma s.tags)
    category := s.categoryId.map natToStr
    page := if s.page = 1 then none else some (natToStr s.page) }

/-- The component-state view of an abstract `FilterState`: the category id
is held as its decimal string (`''` when absent), everything else is
carried over.  Used to compare `decodeFilters ∘ encodeFilter` with the
identity. -/
def toCodeFilter (s : FilterState) : CodeFilter :=
  { q := s.keyword
    tags := s.tags
    category := (s.categoryId.map natToStr).getD []
    page := s.page }

/-! ## The discovery controller

State and commit logic of `ThreadsListPage` (`part_003`): the component
state that a request's response updates, and one "arrival" step per
asynchronous fetch.  The code awaits a fetch and then unconditionally
writes the component state; there is no sequence counter, so arrivals are
modelled as state-passing in arrival order. -/

/-- What `setThreads` was last given: a proper list of threads (identified
by their ids), or — when a 2xx response had neither a `results` array nor
was itself an array — the raw non-array payload (`data.results ?? data`). -/
inductive Committed where
  | list (l : List Nat)
  | junk
  deriving DecidableEq, Repr

/-- Parsed JSON body of a 2xx listing response (`/api/threads/`):
an object with a `results` array and an optional `count`; a bare array;
or any other shape (whose optional `count` field is still read). -/
inductive ListData where
  | withResults (l : List Nat) (count : Option Int)
  | bareArray (l : List Nat)
  | other (count : Option Int)
  deriving DecidableEq, Repr

/-- Outcome of one listing request as the code can observe it:
the fetch or `res.json()` rejected (transport / malformed JSON); the
response was non-2xx (carrying `data.error` when present); or 2xx with a
parsed body. -/
inductive ListResp where
  | netFail (msg : String)
  | httpFail (msg : Option String)
  | ok (d : ListData)
  deriving DecidableEq, Repr

/-- The `ThreadsListPage` state a discovery response commits to:
`threads`, `total`, `page`, `error`, `isSearching`. -/
structure PageState where
  threads : Committed
  total : Option Int
  page : Nat
  error : Option String
  isSearching : Bool
  deriving DecidableEq, Repr

/-- `const results = data.results ?? data` followed by `setThreads(results)`. -/
def listResults : ListData → Committed
  | ListData.withResults l _ => Committed.list l
  | ListData.bareArray l => Committed.list l
  | ListData.other _ => Committed.junk

/-- `data.count ?? (Array.isArray(results) ? results.length : null)`. -/
def listCount : ListData → Option Int
  | ListData.withResults l c => some (c.getD l.length)
  | ListData.bareArray l => some (l.length : Int)
  | ListData.other c => c

/-- Response arrival for `loadAllThreads` / `loadThreadsWithFilters`
(`part_003` lines 508–536 and 538–562; both bodies are identical): on a 2xx
response commit results, count, page and clear the error; on any caught
failure only set the error message (`setError(err.message)`, where a non-2xx
response threw `new Error(data.error || 'Failed to load threads')`). -/
def loadAllThreadsCommit (s : PageState) (targetPage : Nat) (r : ListResp) :
    PageState :=
  match r with
  | ListResp.netFail m => { s with error := some m }
  | ListResp.httpFail m => { s with error := some (m.getD "Failed to load threads") }
  | ListResp.ok d =>
    { threads := listResults d
      total := listCount d
      page := targetPage
      error := none
      isSearching := false }

/-- `PAGE_SIZE` (`part_003` line 505). -/
def PAGE_SIZE : Nat := 20

/-- Outcome of the `searchApi` call: it threw (fetch/JSON rejection or a
non-2xx response, whose message is `data.error || 'Search failed'`), or it
returned a parsed body whose `threads` field may be absent
(`threads? = none` makes the subsequent `.map` throw) and whose
`total_threads` may be absent. -/
inductive SearchOutcome where
  | fail (msg : Option String)
  | ok (ids : Option (List Nat)) (total_threads : Option Int)
  deriving DecidableEq, Repr

/-- Outcome of the post-filter listing request inside
`doSearchWithFilters`: the fetch or `filterRes.json()` rejected
(propagating to the outer catch); the response was non-2xx
(`filterRes.ok` false — silently ignored, raw hits kept); or 2xx with a
parsed body. -/
inductive FilterOutcome where
  | reject (msg : Option String)
  | notOk
  | ok (d : ListData)
  deriving DecidableEq, Repr

/-- The network environment one `doSearchWithFilters` run executes
against: the search response, the post-filter listing response (consulted
only if that request is issued), and the plain listing response (consulted
only on the empty-keyword path). -/
structure SearchEnv where
  search : SearchOutcome
  filter : FilterOutcome
  listing : ListResp
  deriving DecidableEq, Repr

/-- The backend requests `doSearchWithFilters` can issue. -/
inductive Request where
  | searchReq (q : Str) (page : Nat) (limit : Nat)
  | listReq (page : Nat) (tags : List Str) (category : Str)
  | idsReq (ids : List Nat) (tags : List Str) (category : Str)
  deriving DecidableEq, Repr

/-- `filteredResults = filterData.results ?? filterData` followed by
`.map(...)`: yields the list when the value is an array, otherwise the
`.map` call throws (caught by the outer catch). -/
def filterItems : ListData → Option (List Nat)
  | ListData.withResults l _ => some l
  | ListData.bareArray l => some l
  | ListData.other _ => none

/-- The success commit of the search path (`part_003` lines 652–655):
`setThreads(searchResults)`, `setTotal(res.total_threads || 0)`,
`setPage(targetPage)`, `setIsSearching(true)`; `setError(null)` ran before
the awaits and nothing set it since. -/
def commitSearch (targetPage : Nat) (items : List Nat)
    (total_threads : Option Int) : PageState :=
  { threads := Committed.list items
    total := some (total_threads.getD 0)
    page := targetPage
    error := none
    isSearching := true }

/-- `doSearchWithFilters` (`part_003` lines 602–661), returning the final
component state together with the list of requests it issued, in order:

* empty (trimmed) keyword: delegate to `loadThreadsWithFilters`;
* otherwise issue the relevance search for the keyword alone; on a parsed
  response, if a tag or category filter is set and the hit ids are
  non-empty, issue the listing request restricted to those ids plus the
  filters, replacing the hits when it parses as an array (a non-2xx filter
  response is silently ignored); commit items, `total_threads || 0` and the
  page; any exception reaches the catch, which only sets the error. -/
def doSearchWithFilters (keyword : Str) (tagsToUse : List Str)
    (categoryToUse : Str) (targetPage : Nat) (env : SearchEnv)
    (s : PageState) : PageState × List Request :=
  if trimStr keyword = [] then
    (loadAllThreadsCommit s targetPage env.listing,
     [Request.listReq targetPage tagsToUse categoryToUse])
  else
    let base := [Request.searchReq keyword targetPage PAGE_SIZE]
    match env.search with
    | SearchOutcome.fail m =>
      ({ s with error := some (m.getD "Search failed") }, base)
    | SearchOutcome.ok none _ =>
      ({ s with error := some "res.threads.map is not a function" }, base)
    | SearchOutcome.ok (some ids) tt =>
      if trimStr categoryToUse ≠ [] ∨ tagsToUse ≠ [] then
        if ids ≠ [] then
          let reqs := base ++ [Request.idsReq ids tagsToUse categoryToUse]
          match env.filter with
          | FilterOutcome.reject m =>
            ({ s with error := some (m.getD "Search failed") }, reqs)
          | FilterOutcome.notOk => (commitSearch targetPage ids tt, reqs)
          | FilterOutcome.ok d =>
            match filterItems d with
            | some l => (commitSearch targetPage l tt, reqs)
            | none =>
              ({ s with error := some "filteredResults.map is not a function" },
               reqs)
        else (commitSearch targetPage ids tt, base)
      else (commitSearch targetPage ids tt, base)

/-- The invariant §3 states for committed tag sets: no duplicates and no
uppercase letters. -/
def tagsWF (ts : List Str) : Prop :=
  ts.Nodup ∧ ∀ t ∈ ts, noUpperStr t = true

/-- A freshly mounted `ThreadsListPage`: no threads, no total, page 1,
no error, not searching. -/
def initialPageState : PageState :=
  { threads := Committed.list [], total := none, page := 1, error := none,
    isSearching := false }

/-- A state with a previously committed result page (threads 1 and 2). -/
def prevCommitted : PageState :=
  { threads := Committed.list [1, 2], total := some 2, page := 1,
    error := none, isSearching := false }

/-- The new state keeps the previously committed result page:
same `threads`, `total` and `page`. -/
def preservesResults (s s2 : PageState) : Prop :=
  s2.threads = s.threads ∧ s2.total = s.total ∧ s2.page = s.page

/-- The conditions under which a `doSearchWithFilters` run with a non-empty
keyword reaches its catch block: the search request threw, its body had no
`threads` array, or the issued post-filter request threw or returned a 2xx
body that is neither a `results` object nor an array. -/
def searchThrows (tg : List Str) (ct : Str) (env : SearchEnv) : Prop :=
  match env.search with
  | SearchOutcome.fail _ => True
  | SearchOutcome.ok none _ => True
  | SearchOutcome.ok (some ids) _ =>
    (trimStr ct ≠ [] ∨ tg ≠ []) ∧ ids ≠ []
      ∧ (match env.filter with
         | FilterOutcome.reject _ => True
         | FilterOutcome.notOk => False
         | FilterOutcome.ok d => filterItems d = none)

/-- Environment for the post-filter example: the keyword search finds
threads 4 and 7 with `total_threads = 100`; the post-filter request keeps
only thread 7. -/
def exEnv : SearchEnv :=
  { search := SearchOutcome.ok (some [4, 7]) (some 100)
    filter := FilterOutcome.ok (ListData.withResults [7] none)
    listing := ListResp.httpFail none }

/-- Environment in which the keyword search request throws. -/
def failEnv : SearchEnv :=
  { search := SearchOutcome.fail none
    filter := FilterOutcome.notOk
    listing := ListResp.httpFail none }

/-! ## Sanity checks on concrete runs -/

example :
    runComposer tagInputStep (composerInit [])
      [Key.char '#', Key.char 'r', Key.char 'u', Key.char 's', Key.char 't',
       Key.enter]
      = { tags := [['r', 'u', 's', 't']], tagging := false, draft := [] } := by
  decide

example :
    runComposer threadEditStep (composerInit [])
      [Key.char '#', Key.char 'A', Key.char 'B', Key.char 'C', Key.enter,
       Key.char '#', Key.char 'a', Key.char 'b', Key.char 'c', Key.enter]
      = { tags := [['a', 'b', 'c']], tagging := false, draft := [] } := by
  decide

example :
    decodeFilters { q := none, tag := some ['a', ',', ' ', ',', 'b'],
                    category := none, page := none }
      = { q := [], tags := [['a'], [], ['b']], category := [], page := 1 } := by
  decide

example :
    (doSearchWithFilters ['e', 'x'] [['c', 's']] [] 1
      { search := SearchOutcome.ok (some [4, 7]) (some 9)
        filter := FilterOutcome.ok (ListData.withResults [7] none)
        listing := ListResp.httpFail none }
      { threads := Committed.list [], total := none, page := 1,
        error := none, isSearching := false })
      = ({ threads := Committed.list [7], total := some 9, page := 1,
           error := none, isSearching := true },
         [Request.searchReq ['e', 'x'] 1 20, Request.idsReq [4, 7] [['c', 's']] []]) := by
  decide

/-! ## Library lemmas about the string helpers -/

lemma validStr_filterValid (l : Str) : validStr (filterValid l) = true := by
  simp only [validStr, filterValid, List.all_eq_true]
  intro c hc
  exact (List.mem_filter.mp hc).2

lemma filterValid_of_valid {l : Str} (h : validStr l = true) :
    filterValid l = l := by
  simp only [validStr, List.all_eq_true] at h
  exact List.filter_eq_self.mpr h

lemma validStr_append {a b : Str} (ha : validStr a = true)
    (hb : validStr b = true) : validStr (a ++ b) = true := by
  simp only [validStr, List.all_append, Bool.and_eq_true]
  exact ⟨ha, hb⟩

lemma validStr_dropLast {l : Str} (h : validStr l = true) :
    validStr l.dropLast = true := by
  simp only [validStr, List.all_eq_true] at h ⊢
  intro c hc
  exact h c (List.dropLast_subset l hc)

lemma validStr_reverse {l : Str} (h : validStr l = true) :
    validStr l.reverse = true := by
  simp only [validStr, List.all_eq_true, List.mem_reverse] at h ⊢
  exact h

lemma not_ws_of_valid {c : Char} (h : isValidTagChar c = true) :
    isWs c = false := by
  by_contra hw
  rw [Bool.not_eq_false] at hw
  simp only [isWs, Bool.or_eq_true, decide_eq_true_eq] at hw
  rcases hw with ((((rfl | rfl) | rfl) | rfl) | rfl) | rfl <;>
    exact absurd h (by decide)

lemma comma_not_mem_of_valid {t : Str} (h : validStr t = true) : ',' ∉ t := by
  intro hm
  simp only [validStr, List.all_eq_true] at h
  exact absurd (h _ hm) (by decide)

lemma dropWhile_isWs_of_valid {l : Str} (h : validStr l = true) :
    l.dropWhile isWs = l := by
  cases l with
  | nil => rfl
  | cons c rest =>
    have hc : isValidTagChar c = true := by
      simp only [validStr, List.all_cons, Bool.and_eq_true] at h
      exact h.1
    simp [List.dropWhile_cons, not_ws_of_valid hc]

lemma trimStr_of_valid {l : Str} (h : validStr l = true) : trimStr l = l := by
  unfold trimStr
  rw [dropWhile_isWs_of_valid h, dropWhile_isWs_of_valid (validStr_reverse h),
    List.reverse_reverse]

lemma splitChar_ne_nil (sep : Char) (l : Str) : splitChar sep l ≠ [] := by
  induction l with
  | nil => simp [splitChar]
  | cons c rest ih =>
    simp only [splitChar]
    cases h : splitChar sep rest with
    | nil => exact absurd h ih
    | cons s ss => by_cases hc : c = sep <;> simp [hc]

lemma splitChar_of_not_mem {sep : Char} {l : Str} (h : sep ∉ l) :
    splitChar sep l = [l] := by
  induction l with
  | nil => rfl
  | cons c rest ih =>
    have hc : ¬c = sep := by
      rintro rfl
      exact h (List.mem_cons_self _ _)
    have hr : sep ∉ rest := fun hm => h (List.mem_cons_of_mem _ hm)
    simp [splitChar, ih hr, hc]

lemma splitChar_append {sep : Char} {t r : Str} (h : sep ∉ t) :
    splitChar sep (t ++ sep :: r) = t :: splitChar sep r := by
  induction t with
  | nil =>
    simp only [List.nil_append, splitChar]
    cases hs : splitChar sep r with
    | nil => exact absurd hs (splitChar_ne_nil sep r)
    | cons s ss => simp [hs]
  | cons c t2 ih =>
    have hc : ¬c = sep := by
      rintro rfl
      exact h (List.mem_cons_self _ _)
    have ht : sep ∉ t2 := fun hm => h (List.mem_cons_of_mem _ hm)
    simp [splitChar, ih ht, hc]

lemma splitChar_joinComma {ts : List Str} (h : ∀ t ∈ ts, ',' ∉ t)
    (hne : ts ≠ []) : splitChar ',' (joinComma ts) = ts := by
  induction ts with
  | nil => exact absurd rfl hne
  | cons t ts2 ih =>
    cases ts2 with
    | nil =>
      simpa [joinComma] using splitChar_of_not_mem (h t (by simp))
    | cons u us =>
      have hj : joinComma (t :: u :: us) = t ++ ',' :: joinComma (u :: us) := rfl
      rw [hj, splitChar_append (h t (by simp)),
        ih (fun x hx => h x (List.mem_cons_of_mem _ hx)) (by simp)]

lemma joinComma_ne_nil {ts : List Str} (hne : ts ≠ [])
    (h : ∀ t ∈ ts, t ≠ []) : joinComma ts ≠ [] := by
  cases ts with
  | nil => exact absurd rfl hne
  | cons t ts2 =>
    cases ts2 with
    | nil => simpa [joinComma] using h t (by simp)
    | cons u us => simp [joinComma]

lemma contains_jsLowerChar (c : Char) :
    upperChars.contains (jsLowerChar c) = false := by
  unfold jsLowerChar
  by_cases h : upperChars.contains c = true
  · rw [if_pos h]
    have hm : c ∈ upperChars := by simpa using h
    fin_cases hm <;> decide
  · rw [if_neg h]
    simpa using h

lemma noUpper_jsLower (l : Str) : noUpperStr (jsLower l) = true := by
  simp only [noUpperStr, jsLower, List.all_eq_true, List.mem_map]
  rintro c ⟨a, -, rfl⟩
  simpa using contains_jsLowerChar a

lemma validStr_singleton {c : Char} (h : isValidTagChar c = true) :
    validStr [c] = true := by
  simp [validStr, h]

lemma afterLastHash_single : filterValid (afterLastHash ['#']) = [] := by
  decide

/-! ## Lemmas about the composer step functions -/

lemma tagInputStep_enter {s : ComposerState} (h : s.tagging = true) :
    tagInputStep s Key.enter
      = if jsLower (trimStr s.draft) ≠ [] ∧ jsLower (trimStr s.draft) ∉ s.tags
        then { tags := s.tags ++ [jsLower (trimStr s.draft)],
               tagging := false, draft := [] }
        else { s with tagging := false, draft := [] } := by
  simp only [tagInputStep, h, if_true]

lemma threadEditStep_enter {s : ComposerState} (h : s.tagging = true) :
    threadEditStep s Key.enter
      = if jsLower (trimStr s.draft) ≠ [] ∧ jsLower (trimStr s.draft) ∉ s.tags
        then { tags := s.tags ++ [jsLower (trimStr s.draft)],
               tagging := false, draft := [] }
        else { s with tagging := false, draft := [] } := by
  simp only [threadEditStep, h, if_true]

lemma tagInputStep_draft_valid {s : ComposerState}
    (h : validStr s.draft = true) (k : Key) :
    validStr (tagInputStep s k).draft = true := by
  unfold tagInputStep
  by_cases ht : s.tagging = true
  · rw [if_pos ht]
    cases k with
    | enter => dsimp only; split <;> simp [validStr]
    | escape => simp [validStr]
    | backspace =>
      dsimp only
      split
      · simpa using h
      · exact validStr_filterValid _
    | char c =>
      dsimp only
      split
      · exact validStr_filterValid _
      · exact h
  · rw [if_neg ht]
    cases k with
    | char c =>
      dsimp only
      split
      · exact validStr_filterValid _
      · exact h
    | enter => exact h
    | backspace => exact h
    | escape => exact h

lemma threadEditStep_draft_valid {s : ComposerState}
    (h : validStr s.draft = true) (k : Key) :
    validStr (threadEditStep s k).draft = true := by
  unfold threadEditStep
  cases k with
  | char c =>
    dsimp only
    split
    · split
      · exact h
      · simp [validStr]
    · split
      · split
        · rename_i hv
          exact validStr_append h (validStr_singleton hv)
        · exact h
      · exact h
  | enter =>
    dsimp only
    split
    · split <;> simp [validStr]
    · exact h
  | backspace =>
    dsimp only
    split
    · exact validStr_dropLast h
    · exact h
  | escape =>
    dsimp only
    split
    · simp [validStr]
    · exact h

lemma runComposer_draft_valid {step : ComposerState → Key → ComposerState}
    (hstep : ∀ s k, validStr s.draft = true → validStr (step s k).draft = true) :
    ∀ (ks : List Key) (s : ComposerState), validStr s.draft = true →
      validStr (runComposer step s ks).draft = true := by
  intro ks
  induction ks with
  | nil => exact fun s h => h
  | cons k ks ih => exact fun s h => ih _ (hstep s k h)

lemma tagsWF_commit {ts : List Str} (h : tagsWF ts) (d : Str) :
    tagsWF (if jsLower (trimStr d) ≠ [] ∧ jsLower (trimStr d) ∉ ts
            then ts ++ [jsLower (trimStr d)] else ts) := by
  split
  · rename_i hc
    refine ⟨?_, ?_⟩
    · rw [List.nodup_append]
      exact ⟨h.1, List.nodup_singleton _, by simpa using hc.2⟩
    · intro t hm
      rcases List.mem_append.mp hm with hm | hm
      · exact h.2 t hm
      · rcases List.mem_singleton.mp hm with rfl
        exact noUpper_jsLower _
  · exact h

lemma tagInputStep_tagsWF {s : ComposerState} (h : tagsWF s.tags) (k : Key) :
    tagsWF (tagInputStep s k).tags := by
  unfold tagInputStep
  by_cases ht : s.tagging = true
  · rw [if_pos ht]
    cases k with
    | enter =>
      have := tagsWF_commit h s.draft
      dsimp only
      split <;> rename_i hc
      · rw [if_pos hc] at this
        exact this
      · exact h
    | escape => exact h
    | backspace => dsimp only; split <;> exact h
    | char c => dsimp only; split <;> exact h
  · rw [if_neg ht]
    cases k with
    | char c => dsimp only; split <;> exact h
    | enter => exact h
    | backspace => exact h
    | escape => exact h

lemma threadEditStep_tagsWF {s : ComposerState} (h : tagsWF s.tags) (k : Key) :
    tagsWF (threadEditStep s k).tags := by
  unfold threadEditStep
  cases k with
  | char c =>
    dsimp only
    split
    · split <;> exact h
    · split
      · split <;> exact h
      · exact h
  | enter =>
    dsimp only
    split
    · have := tagsWF_commit h s.draft
      split <;> rename_i hc
      · rw [if_pos hc] at this
        exact this
      · exact h
    · exact h
  | backspace => dsimp only; split <;> exact h
  | escape => dsimp only; split <;> exact h

/-! ## Claim theorems: the tag composer -/

/-- **C6** — In the Drafting state, pressing Enter commits as follows: if
the trimmed, lowercased buffer is non-empty and not already present in the
committed tag set, it is appended to that set; otherwise the set is
unchanged; in both cases the buffer is cleared and the composer returns to
Idle (in both composition sites, which agree on Enter).  Consequently
composing `#ABC` then `#abc` on an empty committed set yields exactly the
one committed tag `"abc"`, and composing `#rust` then Enter on an empty
set yields committed tags `{"rust"}` with buffer cleared and state Idle. -/
theorem enter_commit_semantics (s : ComposerState) (h : s.tagging = true) :
    ((tagInputStep s Key.enter).tagging = false
      ∧ (tagInputStep s Key.enter).draft = []
      ∧ (jsLower (trimStr s.draft) ≠ [] ∧ jsLower (trimStr s.draft) ∉ s.tags →
          (tagInputStep s Key.enter).tags = s.tags ++ [jsLower (trimStr s.draft)])
      ∧ (jsLower (trimStr s.draft) = [] ∨ jsLower (trimStr s.draft) ∈ s.tags →
          (tagInputStep s Key.enter).tags = s.tags)
      ∧ threadEditStep s Key.enter = tagInputStep s Key.enter)
    ∧ runComposer tagInputStep (composerInit [])
        [Key.char '#', Key.char 'A', Key.char 'B', Key.char 'C', Key.enter,
         Key.char '#', Key.char 'a', Key.char 'b', Key.char 'c', Key.enter]
        = composerInit [['a', 'b', 'c']]
    ∧ runComposer threadEditStep (composerInit [])
        [Key.char '#', Key.char 'A', Key.char 'B', Key.char 'C', Key.enter,
         Key.char '#', Key.char 'a', Key.char 'b', Key.char 'c', Key.enter]
        = composerInit [['a', 'b', 'c']]
    ∧ runComposer tagInputStep (composerInit [])
        [Key.char '#', Key.char 'r', Key.char 'u', Key.char 's', Key.char 't',
         Key.enter]
        = composerInit [['r', 'u', 's', 't']] := by
  refine ⟨?_, by decide, by decide, by decide⟩
  rw [tagInputStep_enter h, threadEditStep_enter h]
  by_cases hc : jsLower (trimStr s.draft) ≠ [] ∧ jsLower (trimStr s.draft) ∉ s.tags
  · rw [if_pos hc]
    refine ⟨rfl, rfl, fun _ => rfl, fun habs => ?_, rfl⟩
    rcases habs with habs | habs
    · exact absurd habs hc.1
    · exact absurd habs hc.2
  · rw [if_neg hc]
    refine ⟨rfl, rfl, fun habs => absurd habs hc, fun _ => rfl, rfl⟩

/-- Witness for `enter_commit_semantics` at a concrete Drafting state. -/
theorem enter_commit_semantics_witness :
    (tagInputStep { tags := [], tagging := true, draft := ['r'] } Key.enter).tagging
      = false :=
  (enter_commit_semantics { tags := [], tagging := true, draft := ['r'] } rfl).1.1

/-- **C7** — For every sequence of keystrokes (in either composition site,
starting from any committed tag set) the draft buffer matches
`[a-zA-Z0-9_-]*`, and a printable character outside that class received
while Drafting is swallowed: the composer state is unchanged and no error
is raised (the step functions are total). -/
theorem draft_buffer_always_valid :
    (∀ (tags0 : List Str) (ks : List Key),
        validStr (runComposer tagInputStep (composerInit tags0) ks).draft = true)
    ∧ (∀ (tags0 : List Str) (ks : List Key),
        validStr (runComposer threadEditStep (composerInit tags0) ks).draft = true)
    ∧ (∀ (s : ComposerState) (c : Char), s.tagging = true →
        isValidTagChar c = false →
        tagInputStep s (Key.char c) = s ∧ threadEditStep s (Key.char c) = s) := by
  refine ⟨?_, ?_, ?_⟩
  · intro tags0 ks
    exact runComposer_draft_valid (fun s k h => tagInputStep_draft_valid h k) ks
      (composerInit tags0) rfl
  · intro tags0 ks
    exact runComposer_draft_valid (fun s k h => threadEditStep_draft_valid h k) ks
      (composerInit tags0) rfl
  · intro s c ht hv
    constructor
    · simp [tagInputStep, ht, hv]
    · by_cases hc : c = '#'
      · subst hc
        simp [threadEditStep, ht]
      · simp [threadEditStep, ht, hc, hv]

/-- Witness for `draft_buffer_always_valid`: the invalid character `!`
typed while Drafting changes nothing in either composer. -/
theorem draft_buffer_always_valid_witness :
    tagInputStep { tags := [], tagging := true, draft := [] } (Key.char '!')
        = { tags := [], tagging := true, draft := [] }
      ∧ threadEditStep { tags := [], tagging := true, draft := [] } (Key.char '!')
        = { tags := [], tagging := true, draft := [] } :=
  draft_buffer_always_valid.2.2 _ '!' rfl (by decide)

/-- **C8** — The two tag-composition sites are not behaviorally equivalent
on Backspace with an empty Drafting buffer: `TagInput` exits Drafting
(next state Idle), while the `ThreadEditModal` composer keeps Drafting with
an unchanged empty buffer; on every other composer input (from any state
with a well-formed draft buffer) the two step functions agree. -/
theorem backspace_policy_divergence :
    (tagInputStep { tags := [], tagging := true, draft := [] } Key.backspace
        = { tags := [], tagging := false, draft := [] }
      ∧ threadEditStep { tags := [], tagging := true, draft := [] } Key.backspace
        = { tags := [], tagging := true, draft := [] }
      ∧ ({ tags := [], tagging := false, draft := [] } : ComposerState)
          ≠ { tags := [], tagging := true, draft := [] })
    ∧ ∀ (s : ComposerState) (k : Key), validStr s.draft = true →
        ¬(s.tagging = true ∧ k = Key.backspace ∧ s.draft = []) →
        tagInputStep s k = threadEditStep s k := by
  refine ⟨by decide, ?_⟩
  intro s k hv hne
  cases k with
  | enter =>
    by_cases ht : s.tagging = true
    · rw [tagInputStep_enter ht, threadEditStep_enter ht]
    · have ht2 : s.tagging = false := by simpa using ht
      simp [tagInputStep, threadEditStep, ht2]
  | escape =>
    by_cases ht : s.tagging = true
    · simp [tagInputStep, threadEditStep, ht]
    · have ht2 : s.tagging = false := by simpa using ht
      simp [tagInputStep, threadEditStep, ht2]
  | backspace =>
    by_cases ht : s.tagging = true
    · have hd : ¬s.draft = [] := fun hd => hne ⟨ht, rfl, hd⟩
      simp [tagInputStep, threadEditStep, ht, hd,
        filterValid_of_valid (validStr_dropLast hv)]
    · have ht2 : s.tagging = false := by simpa using ht
      simp [tagInputStep, threadEditStep, ht2]
  | char c =>
    by_cases hc : c = '#'
    · subst hc
      by_cases ht : s.tagging = true
      · simp [tagInputStep, threadEditStep, ht, (by decide : isValidTagChar '#' = false)]
      · have ht2 : s.tagging = false := by simpa using ht
        simp [tagInputStep, threadEditStep, ht2, afterLastHash_single]
    · by_cases ht : s.tagging = true
      · by_cases hval : isValidTagChar c = true
        · simp [tagInputStep, threadEditStep, ht, hc, hval,
            filterValid_of_valid (validStr_append hv (validStr_singleton hval))]
        · have hval2 : isValidTagChar c = false := by simpa using hval
          simp [tagInputStep, threadEditStep, ht, hc, hval2]
      · have ht2 : s.tagging = false := by simpa using ht
        simp [tagInputStep, threadEditStep, ht2, hc]

/-- Witness for `backspace_policy_divergence`: the agreement half applied
to Enter at a concrete Drafting state. -/
theorem backspace_policy_divergence_witness :
    tagInputStep { tags := [], tagging := true, draft := ['a'] } Key.enter
      = threadEditStep { tags := [], tagging := true, draft := ['a'] } Key.enter :=
  backspace_policy_divergence.2 _ Key.enter (by decide) (by simp)

/-! ## Claim theorems: the filter-state codec -/

lemma map_trimStr_of_valid {ts : List Str} (h : ∀ t ∈ ts, validStr t = true) :
    ts.map trimStr = ts := by
  induction ts with
  | nil => rfl
  | cons t ts2 ih =>
    simp only [List.map_cons, trimStr_of_valid (h t (by simp)),
      ih (fun x hx => h x (List.mem_cons_of_mem _ hx))]

/-- **C2 counterexample** — the FilterState with empty keyword, no tags, no
category and page 2 is reachable in the claim's sense (page ≥ 1, tag set
duplicate-free and lowercase, keyword trimmed), yet decoding its encoding
does not give it back: the URL-decoding effect never reads a `page`
parameter, so the round-trip lands on page 1. -/
theorem roundtrip_counterexample :
    (1 ≤ (FilterState.mk [] [] none 2).page
      ∧ (FilterState.mk [] [] none 2).tags.Nodup
      ∧ trimStr (FilterState.mk [] [] none 2).keyword
          = (FilterState.mk [] [] none 2).keyword)
    ∧ decodeFilters (encodeFilter (FilterState.mk [] [] none 2))
        ≠ toCodeFilter (FilterState.mk [] [] none 2)
    ∧ (decodeFilters (encodeFilter (FilterState.mk [] [] none 2))).page = 1 := by
  decide

/-- **C2 (amended)** — the round-trip `decode(encode(s)) = s` holds for
every FilterState with `page = 1` whose tags are non-empty strings over the
tag character class (as every composer-committed tag is); for `page ≥ 2`
it fails, because decoding ignores the page parameter (see
`roundtrip_counterexample`). -/
theorem roundtrip_page_one (s : FilterState) (hp : s.page = 1)
    (ht : ∀ t ∈ s.tags, t ≠ [] ∧ validStr t = true) :
    decodeFilters (encodeFilter s) = toCodeFilter s := by
  unfold decodeFilters encodeFilter toCodeFilter
  dsimp only
  rw [CodeFilter.mk.injEq]
  refine ⟨?_, ?_, rfl, hp.symm⟩
  · by_cases hk : s.keyword = [] <;> simp [hk]
  · by_cases hts : s.tags = []
    · simp [hts]
    · have hne : joinComma s.tags ≠ [] :=
        joinComma_ne_nil hts (fun t hm => (ht t hm).1)
      have hcm : ∀ t ∈ s.tags, ',' ∉ t :=
        fun t hm => comma_not_mem_of_valid (ht t hm).2
      simp only [hts, if_false, Option.getD_some, if_pos hne,
        splitChar_joinComma hcm hts,
        map_trimStr_of_valid (fun t hm => (ht t hm).2)]

/-- Witness for `roundtrip_page_one` at the §8 scenario state
`{keyword:"ex", tags:{"cs"}, categoryId:3, page:1}`. -/
theorem roundtrip_page_one_witness :
    decodeFilters (encodeFilter { keyword := ['e', 'x'], tags := [['c', 's']],
                                  categoryId := some 3, page := 1 })
      = toCodeFilter { keyword := ['e', 'x'], tags := [['c', 's']],
                       categoryId := some 3, page := 1 } :=
  roundtrip_page_one _ rfl (by decide)

/-- **C3 counterexample** — decoding the tag parameter `"a, ,b"` does not
drop empty entries: the result is `["a", "", "b"]`, not the claimed
`{"a", "b"}` (the empty string stays in the tag list). -/
theorem decode_empty_entries_counterexample :
    (decodeFilters { q := none, tag := some ['a', ',', ' ', ',', 'b'],
                     category := none, page := none }).tags
        = [['a'], [], ['b']]
    ∧ (decodeFilters { q := none, tag := some ['a', ',', ' ', ',', 'b'],
                       category := none, page := none }).tags
        ≠ [['a'], ['b']]
    ∧ [] ∈ (decodeFilters { q := none, tag := some ['a', ',', ' ', ',', 'b'],
                            category := none, page := none }).tags := by
  decide

/-- **C3 (amended)** — decoding is total and never errors: missing
`q`/`tag`/`category`/`page` parameters yield the defaults
(`keyword=""`, tags empty, category none, page 1); every `page` value,
malformed or not, yields page 1 (the parameter is never read); and a
comma-joined tag parameter splits into entries trimmed per entry with
empty entries *kept*, so `"a, ,b"` decodes to `["a", "", "b"]`. -/
theorem decode_total_defaults :
    decodeFilters { q := none, tag := none, category := none, page := none }
        = { q := [], tags := [], category := [], page := 1 }
    ∧ (∀ pv : Str,
        decodeFilters { q := none, tag := none, category := none, page := some pv }
          = { q := [], tags := [], category := [], page := 1 })
    ∧ decodeFilters { q := none, tag := some ['a', ',', ' ', ',', 'b'],
                      category := none, page := none }
        = { q := [], tags := [['a'], [], ['b']], category := [], page := 1 } := by
  exact ⟨by decide, fun pv => rfl, by decide⟩

/-- **C4 counterexample** — decoding the URL `?tag=A,A` yields the tag list
`["A", "A"]`: it contains an uppercase letter and a duplicate, so the
FilterState produced by URL decoding violates the claimed invariant. -/
theorem decode_invariant_counterexample :
    (decodeFilters { q := none, tag := some ['A', ',', 'A'], category := none,
                     page := none }).tags = [['A'], ['A']]
    ∧ ¬(decodeFilters { q := none, tag := some ['A', ',', 'A'], category := none,
                        page := none }).tags.Nodup
    ∧ ¬(∀ t ∈ (decodeFilters { q := none, tag := some ['A', ',', 'A'],
                               category := none, page := none }).tags,
          noUpperStr t = true) := by
  decide

/-- **C4 (amended)** — tag sets committed through either composer preserve
the invariant (no duplicates, no uppercase), and the decoded page is always
≥ 1; but URL decoding does not re-normalize: tag entries are only trimmed,
so `?tag=A,A` decodes to `["A", "A"]` with uppercase and duplicates
(see `decode_invariant_counterexample`). -/
theorem filter_invariant_amended :
    (∀ (s : ComposerState) (k : Key), tagsWF s.tags →
        tagsWF (tagInputStep s k).tags ∧ tagsWF (threadEditStep s k).tags)
    ∧ (decodeFilters { q := none, tag := some ['A', ',', 'A'], category := none,
                       page := none }).tags = [['A'], ['A']]
    ∧ (∀ p : QueryParams, 1 ≤ (decodeFilters p).page) :=
  ⟨fun _ k h => ⟨tagInputStep_tagsWF h k, threadEditStep_tagsWF h k⟩,
   by decide, fun _ => le_refl 1⟩

/-- Witness for `filter_invariant_amended`: committing Enter from a
concrete Drafting state keeps the tag invariant. -/
theorem filter_invariant_amended_witness :
    tagsWF (tagInputStep { tags := [['a']], tagging := true, draft := ['B'] }
      Key.enter).tags :=
  (filter_invariant_amended.1 { tags := [['a']], tagging := true, draft := ['B'] }
    Key.enter ⟨by decide, by decide⟩).1

/-! ## Claim theorems: the discovery controller -/

/-- **C1 counterexample** — two overlapping listing requests, R1 issued
before R2, whose responses carry thread lists `[1]` and `[2]`
respectively.  R2's response arrives and is committed first; R1's response
arrives second.  Because every arrival is committed unconditionally (the
code has no sequence number), the visible items after both responses are
R1's `[1]`, not R2's `[2]` — refuting the claim that the later-issued
request's result always wins and stale responses are dropped. -/
theorem race_counterexample :
    (([ListResp.ok (ListData.bareArray [2]),
       ListResp.ok (ListData.bareArray [1])].foldl
        (fun st r => loadAllThreadsCommit st 1 r) initialPageState).threads
      = Committed.list [1])
    ∧ Committed.list [1] ≠ Committed.list [2] := by
  decide

/-- **C1 (amended)** — there is no sequence-number guard: each response is
committed on arrival, so after any sequence of arrivals the visible
ResultPage is determined by the response that arrived *last* (here: the
last arrival parses as a 2xx listing body), regardless of the order in
which the requests were issued or of anything previously committed. -/
theorem race_last_arrival_wins (s : PageState) (p : Nat) (d : ListData)
    (earlier : List ListResp) :
    ((earlier ++ [ListResp.ok d]).foldl
        (fun st r => loadAllThreadsCommit st p r) s).threads
      = listResults d := by
  rw [List.foldl_append]
  rfl

/-- **C5** — resolving a non-empty (trimmed) keyword first issues the
relevance search request for the keyword alone; a second listing request —
restricted to exactly the returned ids plus the tag/category filters — is
issued precisely when the id set is non-empty and a tag or category filter
is set, and its parsed ordered output replaces the raw hits in the commit;
with no tag/category filter or an empty id set, the raw search hits are
committed as-is. -/
theorem search_post_filter_intersection (kw : Str) (tg : List Str) (ct : Str)
    (p : Nat) (env : SearchEnv) (s : PageState) (hk : trimStr kw ≠ []) :
    ((doSearchWithFilters kw tg ct p env s).2.head?
        = some (Request.searchReq kw p PAGE_SIZE))
    ∧ (∀ m, env.search = SearchOutcome.fail m →
        (doSearchWithFilters kw tg ct p env s).2
          = [Request.searchReq kw p PAGE_SIZE])
    ∧ (∀ ids tt, env.search = SearchOutcome.ok (some ids) tt →
        (ids ≠ [] ∧ (trimStr ct ≠ [] ∨ tg ≠ []) →
            (doSearchWithFilters kw tg ct p env s).2
              = [Request.searchReq kw p PAGE_SIZE, Request.idsReq ids tg ct])
        ∧ (ids = [] ∨ ¬(trimStr ct ≠ [] ∨ tg ≠ []) →
            (doSearchWithFilters kw tg ct p env s).2
              = [Request.searchReq kw p PAGE_SIZE]
            ∧ (doSearchWithFilters kw tg ct p env s).1 = commitSearch p ids tt)
        ∧ (∀ l c, env.filter = FilterOutcome.ok (ListData.withResults l c) →
            ids ≠ [] → (trimStr ct ≠ [] ∨ tg ≠ []) →
            (doSearchWithFilters kw tg ct p env s).1 = commitSearch p l tt)) := by
  unfold doSearchWithFilters
  rw [if_neg hk]
  refine ⟨?_, ?_, ?_⟩
  · cases env.search with
    | fail m => rfl
    | ok ids tt =>
      cases ids with
      | none => rfl
      | some ids =>
        dsimp only
        by_cases hf : trimStr ct ≠ [] ∨ tg ≠ []
        · rw [if_pos hf]
          by_cases hi : ids ≠ []
          · rw [if_pos hi]
            cases env.filter with
            | reject m => rfl
            | notOk => rfl
            | ok d => cases hd : filterItems d <;> simp [hd]
          · rw [if_neg hi]
            rfl
        · rw [if_neg hf]
          rfl
  · intro m hm
    rw [hm]
  · intro ids tt hs
    rw [hs]
    dsimp only
    refine ⟨?_, ?_, ?_⟩
    · rintro ⟨hi, hf⟩
      rw [if_pos hf, if_pos hi]
      cases env.filter with
      | reject m => rfl
      | notOk => rfl
      | ok d => cases hd : filterItems d <;> simp [hd]
    · intro hor
      rcases hor with hid | hnf
      · by_cases hf : trimStr ct ≠ [] ∨ tg ≠ []
        · rw [if_pos hf, if_neg (by simpa using hid)]
          exact ⟨rfl, rfl⟩
        · rw [if_neg hf]
          exact ⟨rfl, rfl⟩
      · rw [if_neg hnf]
        exact ⟨rfl, rfl⟩
    · intro l c hfe hi hf
      rw [if_pos hf, if_pos hi, hfe]
      rfl

/-- Witness for `search_post_filter_intersection`: the keyword `"ex"` with
tag filter `{"cs"}` against `exEnv` issues the search request first and
commits the post-filtered items. -/
theorem search_post_filter_intersection_witness :
    (doSearchWithFilters ['e', 'x'] [['c', 's']] [] 1 exEnv
        initialPageState).2.head?
      = some (Request.searchReq ['e', 'x'] 1 PAGE_SIZE) :=
  (search_post_filter_intersection ['e', 'x'] [['c', 's']] [] 1 exEnv
    initialPageState (by decide)).1

/-- **C9 counterexample** — a 2xx listing response whose JSON body is an
object of unexpected shape (neither a `results` array nor an array, e.g.
`{}`) is *committed*: the previously committed items are overwritten with
the raw payload and no error message is set — refuting the claim that a
malformed response shape surfaces an error and leaves the committed
ResultPage unchanged. -/
theorem malformed_shape_counterexample :
    (loadAllThreadsCommit prevCommitted 1 (ListResp.ok (ListData.other none))).threads
        = Committed.junk
    ∧ (loadAllThreadsCommit prevCommitted 1
        (ListResp.ok (ListData.other none))).threads ≠ prevCommitted.threads
    ∧ (loadAllThreadsCommit prevCommitted 1
        (ListResp.ok (ListData.other none))).error = none := by
  decide

/-- **C9 (amended)** — for the failures the code detects — transport
failure, non-2xx response, and those malformed shapes that make the
handler throw (a search body without a `threads` array; a post-filter body
that is not an array) — an error message is set and the previously
committed `threads`/`total`/`page` are left unchanged; but a 2xx listing
body of unexpected shape is committed silently
(see `malformed_shape_counterexample`). -/
theorem failure_preserves_results :
    (∀ (s : PageState) (p : Nat) (m : String),
        preservesResults s (loadAllThreadsCommit s p (ListResp.netFail m))
        ∧ (loadAllThreadsCommit s p (ListResp.netFail m)).error = some m)
    ∧ (∀ (s : PageState) (p : Nat) (m : Option String),
        preservesResults s (loadAllThreadsCommit s p (ListResp.httpFail m))
        ∧ (loadAllThreadsCommit s p (ListResp.httpFail m)).error.isSome = true)
    ∧ (∀ (kw : Str) (tg : List Str) (ct : Str) (p : Nat) (env : SearchEnv)
          (s : PageState), trimStr kw ≠ [] → searchThrows tg ct env →
        preservesResults s (doSearchWithFilters kw tg ct p env s).1
        ∧ (doSearchWithFilters kw tg ct p env s).1.error.isSome = true) := by
  refine ⟨fun s p m => ⟨⟨rfl, rfl, rfl⟩, rfl⟩,
          fun s p m => ⟨⟨rfl, rfl, rfl⟩, rfl⟩, ?_⟩
  intro kw tg ct p env s hk hthrow
  unfold doSearchWithFilters
  unfold searchThrows at hthrow
  rw [if_neg hk]
  cases hs : env.search with
  | fail m => exact ⟨⟨rfl, rfl, rfl⟩, rfl⟩
  | ok ids tt =>
    cases ids with
    | none => exact ⟨⟨rfl, rfl, rfl⟩, rfl⟩
    | some ids =>
      rw [hs] at hthrow
      dsimp only at hthrow ⊢
      obtain ⟨hf, hi, hfil⟩ := hthrow
      rw [if_pos hf, if_pos hi]
      cases hfe : env.filter with
      | reject m => exact ⟨⟨rfl, rfl, rfl⟩, rfl⟩
      | notOk =>
        rw [hfe] at hfil
        simp at hfil
      | ok d =>
        rw [hfe] at hfil
        dsimp only at hfil
        dsimp only
        rw [hfil]
        exact ⟨⟨rfl, rfl, rfl⟩, rfl⟩

/-- Witness for `failure_preserves_results`: a throwing keyword search
leaves the concrete previously committed page intact. -/
theorem failure_preserves_results_witness :
    preservesResults prevCommitted
        (doSearchWithFilters ['a'] [] [] 1 failEnv prevCommitted).1
      ∧ (doSearchWithFilters ['a'] [] [] 1 failEnv prevCommitted).1.error.isSome
          = true :=
  failure_preserves_results.2.2 ['a'] [] [] 1 failEnv prevCommitted
    (by decide) trivial

/-- **C10** — whenever a non-empty-keyword run commits (no error), the
committed `totalCount` is the search response's `total_threads` with `|| 0`
applied (0 when the field is absent; unchanged when present, including the
falsy 0), independent of any post-filter intersection; in particular, in
the concrete `exEnv` run the committed total is 100 while only one item is
visible, so `totalCount` exceeds the length of the committed items. -/
theorem total_count_from_search (kw : Str) (tg : List Str) (ct : Str)
    (p : Nat) (env : SearchEnv) (s : PageState) (ids : List Nat)
    (tt : Option Int) (hk : trimStr kw ≠ [])
    (hs : env.search = SearchOutcome.ok (some ids) tt)
    (hcommit : (doSearchWithFilters kw tg ct p env s).1.error = none) :
    ((doSearchWithFilters kw tg ct p env s).1.total = some (tt.getD 0))
    ∧ (∃ (n : Int) (l : List Nat),
        (doSearchWithFilters ['e', 'x'] [['c', 's']] [] 1 exEnv
            initialPageState).1.total = some n
        ∧ (doSearchWithFilters ['e', 'x'] [['c', 's']] [] 1 exEnv
              initialPageState).1.threads = Committed.list l
        ∧ (l.length : Int) < n) := by
  refine ⟨?_, ⟨100, [7], by decide, by decide, by decide⟩⟩
  unfold doSearchWithFilters at hcommit ⊢
  rw [if_neg hk, hs] at hcommit ⊢
  dsimp only at hcommit ⊢
  by_cases hf : trimStr ct ≠ [] ∨ tg ≠ []
  · rw [if_pos hf] at hcommit ⊢
    by_cases hi : ids ≠ []
    · rw [if_pos hi] at hcommit ⊢
      cases hfe : env.filter with
      | reject m =>
        rw [hfe] at hcommit
        simp at hcommit
      | notOk => rfl
      | ok d =>
        rw [hfe] at hcommit
        dsimp only at hcommit
        dsimp only
        cases hd : filterItems d with
        | none =>
          rw [hd] at hcommit
          simp at hcommit
        | some l => rfl
    · rw [if_neg hi]
      rfl
  · rw [if_neg hf]
    rfl

/-- Witness for `total_count_from_search` at the concrete `exEnv` run. -/
theorem total_count_from_search_witness :
    (doSearchWithFilters ['e', 'x'] [['c', 's']] [] 1 exEnv
        initialPageState).1.total = some ((some (100 : Int)).getD 0) :=
  (total_count_from_search ['e', 'x'] [['c', 's']] [] 1 exEnv initialPageState
    [4, 7] (some 100) (by decide) rfl (by decide)).1
